import Mathlib

/-!
Shallow embedding of `src/rtal/src/util.rs` (the TALight tunnel pump).

The bridge loop of `connect_streams` is modelled as a step function over an
explicit state (pending outbound channel chunks, bytes written to the local
write half) driven by per-iteration environment inputs (the outcome of
`ws.read_message`, the elapsed milliseconds since the last clock reset, and
whether the fallible writes succeed).  Every iteration emits its externally
visible actions as an ordered event list, so ordering properties of the
source (clock reset versus `write_all`, `try_recv` polling, teardown) are
stated on traces.  The outbound pump thread and `connect_process` are
modelled the same way.
-/

namespace Rtal

/-- Read deadline of the framed read, in milliseconds (`TICK_DURATION_MS`). -/
def TICK_DURATION_MS : Nat := 10

/-- Inactivity timeout in milliseconds (`TIMEOUT_MS = 60 * 1000`). -/
def TIMEOUT_MS : Nat := 60 * 1000

/-- Transfer buffer size in bytes (`BUFFER_SIZE = 1 << 20`). -/
def BUFFER_SIZE : Nat := 1 <<< 20

/-- A message returned by `ws.read_message`.  Only `binary` carries relay
data; the remaining constructors are the other tungstenite message kinds. -/
inductive Msg
  | binary (payload : List Nat)
  | text (payload : List Nat)
  | ping (payload : List Nat)
  | pong (payload : List Nat)
  | close
  deriving DecidableEq, Repr

/-- Whether a message is a binary payload. -/
def Msg.isBinary : Msg → Bool
  | .binary _ => true
  | _ => false

/-- Outcome of one `ws.read_message` call: a message, an `Io` error of kind
`WouldBlock`/`TimedOut` (the read deadline expired), or any other error. -/
inductive ReadOutcome
  | msg (m : Msg)
  | timedOut
  | otherErr
  deriving DecidableEq, Repr

/-- Result of `rx.try_recv()` on the mpsc channel. -/
inductive TryRecvRes
  | ok (chunk : List Nat)
  | empty
  | disconnected
  deriving DecidableEq, Repr

/-- Externally visible actions of `connect_streams`, in program order. -/
inductive Ev
  | clockReset
  | echoFromRemote (payload : List Nat)
  | echoToRemote (payload : List Nat)
  | writeAllEv (payload : List Nat) (ok : Bool)
  | tryRecvEv (r : TryRecvRes)
  | wsWriteEv (payload : List Nat) (ok : Bool)
  | setReadTimeoutEv (dur : Option Nat) (ok : Bool)
  | setNodelayEv (flag : Bool) (ok : Bool)
  | logErrorEv
  deriving DecidableEq, Repr

/-- Whether an event is a `write_all` to the local write half. -/
def Ev.isWriteAll : Ev → Bool
  | .writeAllEv _ _ => true
  | _ => false

/-- Whether an event is the session clock reset. -/
def Ev.isClockReset : Ev → Bool
  | .clockReset => true
  | _ => false

/-- Whether an event is a `try_recv` poll of the outbound channel. -/
def Ev.isTryRecv : Ev → Bool
  | .tryRecvEv _ => true
  | _ => false

/-- Whether an event is a failed `write_message` on the transport. -/
def Ev.isWsWriteFail : Ev → Bool
  | .wsWriteEv _ ok => !ok
  | _ => false

/-- Whether an event is a `set_nodelay(false)` attempt. -/
def Ev.isSetNodelayFalse : Ev → Bool
  | .setNodelayEv false _ => true
  | _ => false

/-- Whether an event is a `set_read_timeout(None)` attempt. -/
def Ev.isClearReadTimeout : Ev → Bool
  | .setReadTimeoutEv none _ => true
  | _ => false

/-- Whether an event is a socket-configuration or logging action (these are
emitted only by the setup and teardown code, never by the loop body). -/
def Ev.isConfig : Ev → Bool
  | .setReadTimeoutEv _ _ => true
  | .setNodelayEv _ _ => true
  | .logErrorEv => true
  | _ => false

/-- State owned by the bridge loop: the queued outbound chunks (FIFO),
whether the pump thread has dropped its sender, and the bytes written so
far to the local write half `pin`. -/
structure BState where
  chan : List (List Nat)
  senderDropped : Bool
  sink : List Nat
  deriving DecidableEq, Repr

/-- Environment input for one iteration of the bridge loop: the chunks the
pump thread enqueued since the previous iteration, whether it dropped the
sender, the outcome of `ws.read_message`, `Instant::now().duration_since(start)`
in milliseconds at the timeout check, and whether the fallible writes of
this iteration succeed. -/
structure IterIn where
  arrivals : List (List Nat)
  dropNow : Bool
  outcome : ReadOutcome
  elapsed : Nat
  pinWriteOk : Bool
  wsWriteOk : Bool
  deriving DecidableEq, Repr

/-- Control action at the end of a loop iteration. -/
inductive Control
  | cont
  | brk
  deriving DecidableEq, Repr

/-- Whether `write_all` succeeds: an empty buffer needs no underlying write
call and always returns Ok; for a nonempty buffer the environment decides
whether every underlying write succeeds. -/
def write_all_succeeds (buf : List Nat) (envOk : Bool) : Bool :=
  buf.isEmpty || envOk

/-- Nonblocking receive on the mpsc channel: a queued chunk is returned
first-in-first-out; an empty queue reports `Disconnected` exactly when the
sender has been dropped, and `Empty` otherwise. -/
def try_recv (chan : List (List Nat)) (dropped : Bool) :
    TryRecvRes × List (List Nat) :=
  match chan with
  | [] => (if dropped then .disconnected else .empty, [])
  | c :: rest => (.ok c, rest)

/-- One iteration of the bridge loop body of `connect_streams`, transcribed
from the source: a binary message resets the clock, optionally echoes, and
writes the payload in full to `pin` (break on failure); any other message
is ignored; a timed-out read first checks the inactivity timeout with a
greater-or-equal comparison, then polls the channel, sending at most one
chunk; any other read error breaks.  Returns the control action, the next
state, and the events of the iteration in program order. -/
def step (echo : Bool) (st : BState) (inp : IterIn) :
    Control × BState × List Ev :=
  match inp.outcome with
  | .msg m =>
    match m with
    | .binary x =>
      let ok := write_all_succeeds x inp.pinWriteOk
      ((if ok then .cont else .brk),
        { st with sink := if ok then st.sink ++ x else st.sink },
        [.clockReset] ++ (if echo then [.echoFromRemote x] else []) ++
          [.writeAllEv x ok])
    | _ => (.cont, st, [])
  | .timedOut =>
    if TIMEOUT_MS ≤ inp.elapsed then (.brk, st, [])
    else
      match try_recv st.chan st.senderDropped with
      | (.empty, c) => (.cont, { st with chan := c }, [.tryRecvEv .empty])
      | (.disconnected, c) =>
        (.brk, { st with chan := c }, [.tryRecvEv .disconnected])
      | (.ok x, c) =>
        ((if inp.wsWriteOk then .cont else .brk), { st with chan := c },
          [.tryRecvEv (.ok x), .clockReset] ++
            (if echo then [.echoToRemote x] else []) ++
            [.wsWriteEv x inp.wsWriteOk])
  | .otherErr => (.brk, st, [])

/-- Deliver the pump thread activity that happened before an iteration:
chunks are enqueued in order and a dropped sender stays dropped. -/
def deliver (st : BState) (inp : IterIn) : BState :=
  { st with
      chan := st.chan ++ inp.arrivals
      senderDropped := st.senderDropped || inp.dropNow }

/-- The bridge loop run over a finite prefix of environment iterations:
final state, concatenated event trace, and whether the loop has exited via
a break (when the input list ends first, the loop is still running). -/
def run (echo : Bool) (st : BState) : List IterIn → BState × List Ev × Bool
  | [] => (st, [], false)
  | inp :: rest =>
    match step echo (deliver st inp) inp with
    | (.brk, st1, evs) => (st1, evs, true)
    | (.cont, st1, evs) =>
      match run echo st1 rest with
      | (st2, evs2, broke) => (st2, evs ++ evs2, broke)

/-- Teardown of `connect_streams` after the loop exits: clear the read
deadline, then disable nodelay; on either failure the `fail!` macro logs an
error and returns from the function immediately, so a failed clear skips
the nodelay step. -/
def teardownEvs (clearOk nodelayOffOk : Bool) : List Ev :=
  if clearOk then
    if nodelayOffOk then
      [.setReadTimeoutEv none true, .setNodelayEv false true]
    else
      [.setReadTimeoutEv none true, .setNodelayEv false false, .logErrorEv]
  else
    [.setReadTimeoutEv none false, .logErrorEv]

/-- Event trace of `connect_streams`: set the tick read deadline and enable
nodelay (each failing fatally via `fail!`), run the bridge loop, and on
loop exit run the teardown.  When the supplied iteration list ends before
the loop breaks, the loop is still running and no teardown has happened. -/
def connect_streams (echo : Bool) (setupTimeoutOk setupNodelayOk : Bool)
    (st : BState) (inputs : List IterIn) (clearOk nodelayOffOk : Bool) :
    List Ev :=
  if setupTimeoutOk then
    if setupNodelayOk then
      [.setReadTimeoutEv (some TICK_DURATION_MS) true, .setNodelayEv true true] ++
        (match run echo st inputs with
         | (_, evs, broke) =>
           evs ++ if broke then teardownEvs clearOk nodelayOffOk else [])
    else
      [.setReadTimeoutEv (some TICK_DURATION_MS) true,
        .setNodelayEv true false, .logErrorEv]
  else
    [.setReadTimeoutEv (some TICK_DURATION_MS) false, .logErrorEv]

/-- Externally visible actions of `connect_process`. -/
inductive PEv
  | bridgeE (e : Ev)
  | takeStdinE (ok : Bool)
  | takeStdoutE (ok : Bool)
  | killE (ok : Bool)
  | waitE (ok : Bool)
  | logErrorP
  deriving DecidableEq, Repr

/-- Whether a process event is the kill of the child. -/
def PEv.isKillE : PEv → Bool
  | .killE _ => true
  | _ => false

/-- Whether a process event is the wait on the child. -/
def PEv.isWaitE : PEv → Bool
  | .waitE _ => true
  | _ => false

/-- Whether a process event belongs to the bridged session. -/
def PEv.isBridgeE : PEv → Bool
  | .bridgeE _ => true
  | _ => false

/-- Event trace of `connect_process`: take the child stdin and stdout
handles, failing fatally via `fail!` when either is absent; otherwise
bridge the streams and then kill and wait on the child, with both results
matched against a wildcard and discarded. -/
def connect_process (hasStdin hasStdout : Bool) (echo : Bool)
    (setupTimeoutOk setupNodelayOk : Bool) (st : BState)
    (inputs : List IterIn) (clearOk nodelayOffOk : Bool)
    (killOk waitOk : Bool) : List PEv :=
  if hasStdin then
    if hasStdout then
      [.takeStdinE true, .takeStdoutE true] ++
        (connect_streams echo setupTimeoutOk setupNodelayOk st inputs
            clearOk nodelayOffOk).map .bridgeE ++
        [.killE killOk, .waitE waitOk]
    else
      [.takeStdinE true, .takeStdoutE false, .logErrorP]
  else
    [.takeStdinE false, .logErrorP]

/-- One read result of the pump thread source `pout`. -/
inductive ReadRes
  | ok (data : List Nat)
  | err
  deriving DecidableEq, Repr

/-- How the pump thread loop ended; `pending` means the supplied read
history was exhausted with the loop still running. -/
inductive PumpExit
  | eof
  | readErr
  | sendErr
  | pending
  deriving DecidableEq, Repr

/-- The outbound pump thread of `connect_streams`: repeatedly read into a
`BUFFER_SIZE` buffer; a read error ends the `while let`, a zero-size read
breaks, and a failed send (receiver dropped) breaks; otherwise the bytes
read are sent as an owned chunk.  Each input pairs a read result with
whether the receiver is gone at the time of the send.  Returns the chunks
sent, in order, and how the loop ended. -/
def pump : List (ReadRes × Bool) → List (List Nat) × PumpExit
  | [] => ([], .pending)
  | (.err, _) :: _ => ([], .readErr)
  | (.ok data, recvGone) :: rest =>
    if data.length = 0 then ([], .eof)
    else if recvGone then ([], .sendErr)
    else
      match pump rest with
      | (cs, e) => (data :: cs, e)

/-- Whether one pump input stops the thread: a read error, a zero-size
read, or a dropped receiver at the send of a nonzero read. -/
def pumpStops : ReadRes × Bool → Bool
  | (.err, _) => true
  | (.ok data, recvGone) => decide (data.length = 0) || recvGone

/-- Number of bytes produced by one pump read (zero for a read error). -/
def readLen : ReadRes × Bool → Nat
  | (.ok data, _) => data.length
  | (.err, _) => 0

/-- Predicate on a trace: whenever a failed transport `write_message`
event occurs, no `try_recv` poll of the channel occurs afterwards. -/
def noTryRecvAfterWsFail : List Ev → Bool
  | [] => true
  | e :: rest =>
    (if e.isWsWriteFail then rest.all (fun x => !x.isTryRecv) else true) &&
      noTryRecvAfterWsFail rest

/-- Sample empty bridge state, used by concrete evaluations. -/
def st0 : BState := { chan := [], senderDropped := false, sink := [] }

/-- Sample iteration input carrying one binary message. -/
def binIn (x : List Nat) : IterIn :=
  { arrivals := [], dropNow := false, outcome := .msg (.binary x),
    elapsed := 0, pinWriteOk := true, wsWriteOk := true }

/-- Sample iteration input carrying a non-timeout read error. -/
def errIn : IterIn :=
  { arrivals := [], dropNow := false, outcome := .otherErr,
    elapsed := 0, pinWriteOk := true, wsWriteOk := true }

/-- Sample iteration input for a timed-out read. -/
def tickIn (elapsed : Nat) : IterIn :=
  { arrivals := [], dropNow := false, outcome := .timedOut,
    elapsed := elapsed, pinWriteOk := true, wsWriteOk := true }

/-- Sample iteration input carrying a close message. -/
def closeIn : IterIn :=
  { arrivals := [], dropNow := false, outcome := .msg .close,
    elapsed := 0, pinWriteOk := true, wsWriteOk := true }

/-- Sample bridge state with one queued outbound chunk. -/
def st1 : BState := { chan := [[5]], senderDropped := false, sink := [] }

/-- C1 counterexample: at the concrete binary message with payload 7 the
iteration trace places the write_all event strictly after the clock-reset
event, so the payload is not written before the session clock is reset. -/
theorem c1_counterexample :
    ¬ ((step false st0 (binIn [7])).2.2.findIdx Ev.isWriteAll <
      (step false st0 (binIn [7])).2.2.findIdx Ev.isClockReset) := by
  decide

/-- C1 (amended): for every binary message read from the transport, the
session clock is reset first and only then is the full payload handed to
write_all on the local write half; on write success the sink is extended
by exactly the payload. -/
theorem c1_clock_reset_then_write (echo : Bool) (st : BState) (inp : IterIn)
    (x : List Nat) (h : inp.outcome = .msg (.binary x)) :
    (step echo st inp).2.2 =
      [.clockReset] ++ (if echo then [.echoFromRemote x] else []) ++
        [.writeAllEv x (write_all_succeeds x inp.pinWriteOk)] ∧
    (step echo st inp).2.2.findIdx Ev.isClockReset <
      (step echo st inp).2.2.findIdx Ev.isWriteAll ∧
    (write_all_succeeds x inp.pinWriteOk = true →
      (step echo st inp).2.1.sink = st.sink ++ x) := by
  cases hw : write_all_succeeds x inp.pinWriteOk <;> cases echo <;>
    simp [step, h, hw, List.findIdx_cons, Ev.isClockReset, Ev.isWriteAll]

/-- C1 witness: the amended theorem applied at the binary message 7. -/
theorem c1_witness :
    (binIn [7]).outcome = .msg (.binary [7]) ∧
    ((step false st0 (binIn [7])).2.2 =
      [.clockReset] ++ (if false then [.echoFromRemote [7]] else []) ++
        [.writeAllEv [7] (write_all_succeeds [7] (binIn [7]).pinWriteOk)] ∧
    (step false st0 (binIn [7])).2.2.findIdx Ev.isClockReset <
      (step false st0 (binIn [7])).2.2.findIdx Ev.isWriteAll ∧
    (write_all_succeeds [7] (binIn [7]).pinWriteOk = true →
      (step false st0 (binIn [7])).2.1.sink = st0.sink ++ [7])) :=
  ⟨rfl, c1_clock_reset_then_write false st0 (binIn [7]) [7] rfl⟩

/-- C3: the inactivity timeout constant is 60000 milliseconds, and on any
timed-out framed read with elapsed time greater than or equal to it the
bridge loop exits. -/
theorem c3_inactivity_timeout (echo : Bool) (st : BState) (inp : IterIn)
    (h1 : inp.outcome = .timedOut) (h2 : TIMEOUT_MS ≤ inp.elapsed) :
    TIMEOUT_MS = 60000 ∧ (step echo st inp).1 = .brk := by
  refine ⟨rfl, ?_⟩
  simp [step, h1, h2]

/-- C3 witness: at exactly 60000 elapsed milliseconds the comparison is
greater-or-equal, so the loop exits. -/
theorem c3_witness :
    ((tickIn 60000).outcome = .timedOut ∧ TIMEOUT_MS ≤ (tickIn 60000).elapsed) ∧
    (TIMEOUT_MS = 60000 ∧ (step false st0 (tickIn 60000)).1 = .brk) :=
  ⟨⟨rfl, by decide⟩, c3_inactivity_timeout false st0 (tickIn 60000) rfl (by decide)⟩

/-- C7: a successfully read message that is not a binary payload leaves the
state unchanged, emits no event (no clock reset, no write, no echo) and
continues the loop. -/
theorem c7_nonbinary_ignored (echo : Bool) (st : BState) (inp : IterIn)
    (m : Msg) (h1 : inp.outcome = .msg m) (h2 : m.isBinary = false) :
    step echo st inp = (.cont, st, []) := by
  cases m <;> simp_all [step, Msg.isBinary]

/-- C7 witness: the theorem applied to a close message. -/
theorem c7_witness :
    (closeIn.outcome = .msg .close ∧ Msg.close.isBinary = false) ∧
    step false st0 closeIn = (.cont, st0, []) :=
  ⟨⟨rfl, rfl⟩, c7_nonbinary_ignored false st0 closeIn .close rfl rfl⟩

/-- C10: a zero-length binary message is treated as activity: the clock is
reset, write_all of the empty buffer succeeds, the sink is unchanged, and
the loop continues. -/
theorem c10_empty_binary_is_activity (echo : Bool) (st : BState)
    (inp : IterIn) (h : inp.outcome = .msg (.binary [])) :
    (step echo st inp).1 = .cont ∧
    (step echo st inp).2.1 = st ∧
    Ev.clockReset ∈ (step echo st inp).2.2 ∧
    Ev.writeAllEv [] true ∈ (step echo st inp).2.2 := by
  cases echo <;> simp [step, h, write_all_succeeds]

/-- C10 witness: the theorem applied at the empty binary message. -/
theorem c10_witness :
    (binIn []).outcome = .msg (.binary []) ∧
    ((step false st0 (binIn [])).1 = .cont ∧
      (step false st0 (binIn [])).2.1 = st0 ∧
      Ev.clockReset ∈ (step false st0 (binIn [])).2.2 ∧
      Ev.writeAllEv [] true ∈ (step false st0 (binIn [])).2.2) :=
  ⟨rfl, c10_empty_binary_is_activity false st0 (binIn []) rfl⟩

/-- C6: in a timed-out iteration below the inactivity timeout with a chunk
queued, exactly one chunk is taken from the channel (the queue loses only
its head), the trace shows one try_recv followed by a clock reset and then
the send, and on send success the loop continues. -/
theorem c6_one_chunk_per_tick (echo : Bool) (st : BState) (inp : IterIn)
    (x : List Nat) (c : List (List Nat))
    (h1 : inp.outcome = .timedOut) (h2 : inp.elapsed < TIMEOUT_MS)
    (h3 : st.chan = x :: c) :
    (step echo st inp).2.1.chan = c ∧
    (step echo st inp).2.2.countP Ev.isTryRecv = 1 ∧
    (step echo st inp).2.2 =
      [.tryRecvEv (.ok x), .clockReset] ++
        (if echo then [.echoToRemote x] else []) ++
        [.wsWriteEv x inp.wsWriteOk] ∧
    (inp.wsWriteOk = true → (step echo st inp).1 = .cont) := by
  have hnot : ¬ TIMEOUT_MS ≤ inp.elapsed := Nat.not_le.mpr h2
  cases echo <;>
    simp [step, h1, h3, hnot, try_recv, List.countP_cons, Ev.isTryRecv]

/-- C6 witness: the theorem applied to a tick with one queued chunk. -/
theorem c6_witness :
    ((tickIn 0).outcome = .timedOut ∧ (tickIn 0).elapsed < TIMEOUT_MS ∧
      st1.chan = [5] :: []) ∧
    ((step false st1 (tickIn 0)).2.1.chan = [] ∧
      (step false st1 (tickIn 0)).2.2.countP Ev.isTryRecv = 1 ∧
      (step false st1 (tickIn 0)).2.2 =
        [.tryRecvEv (.ok [5]), .clockReset] ++
          (if false then [.echoToRemote [5]] else []) ++
          [.wsWriteEv [5] (tickIn 0).wsWriteOk] ∧
      ((tickIn 0).wsWriteOk = true → (step false st1 (tickIn 0)).1 = .cont)) :=
  ⟨⟨rfl, by decide, rfl⟩,
    c6_one_chunk_per_tick false st1 (tickIn 0) [5] [] rfl (by decide) rfl⟩

/-- C4: under the read contract (each successful read returns at most
BUFFER_SIZE bytes), every chunk the pump thread sends is nonempty and at
most BUFFER_SIZE bytes long, and the thread stops exactly when some read
errors, reads zero bytes, or meets a dropped receiver at its send. -/
theorem c4_pump_chunks_and_exit (hist : List (ReadRes × Bool))
    (hread : ∀ p ∈ hist, readLen p ≤ BUFFER_SIZE) :
    (∀ c ∈ (pump hist).1, c ≠ [] ∧ c.length ≤ BUFFER_SIZE) ∧
    ((pump hist).2 ≠ PumpExit.pending ↔ ∃ p ∈ hist, pumpStops p = true) := by
  induction hist with
  | nil => simp [pump]
  | cons p rest ih =>
    obtain ⟨r, recvGone⟩ := p
    have hhead := hread (r, recvGone) (List.mem_cons_self _ _)
    have hrest := ih (fun q hq => hread q (List.mem_cons_of_mem _ hq))
    cases r with
    | err =>
      have hred : pump ((ReadRes.err, recvGone) :: rest) = ([], .readErr) := rfl
      rw [hred]
      refine ⟨by simp, ?_⟩
      constructor
      · intro _
        exact ⟨(ReadRes.err, recvGone), List.mem_cons_self _ _, rfl⟩
      · intro _
        decide
    | ok d =>
      by_cases hz : d.length = 0
      · have hred : pump ((ReadRes.ok d, recvGone) :: rest) = ([], .eof) := by
          simp [pump, hz]
        rw [hred]
        refine ⟨by simp, ?_⟩
        constructor
        · intro _
          exact ⟨(ReadRes.ok d, recvGone), List.mem_cons_self _ _,
            by simp [pumpStops, hz]⟩
        · intro _
          decide
      · cases recvGone with
        | true =>
          have hred : pump ((ReadRes.ok d, true) :: rest) = ([], .sendErr) := by
            simp [pump, hz]
          rw [hred]
          refine ⟨by simp, ?_⟩
          constructor
          · intro _
            exact ⟨(ReadRes.ok d, true), List.mem_cons_self _ _,
              by simp [pumpStops]⟩
          · intro _
            decide
        | false =>
          rcases hpump : pump rest with ⟨cs, e⟩
          rw [hpump] at hrest
          have hred : pump ((ReadRes.ok d, false) :: rest) = (d :: cs, e) := by
            simp [pump, hz, hpump]
          rw [hred]
          constructor
          · intro c hc
            rcases List.mem_cons.mp hc with hc | hc
            · subst hc
              exact ⟨fun hnil => hz (by simp [hnil]), hhead⟩
            · exact hrest.1 c hc
          · constructor
            · intro he
              rcases hrest.2.mp he with ⟨q, hq, hs⟩
              exact ⟨q, List.mem_cons_of_mem _ hq, hs⟩
            · rintro ⟨q, hq, hs⟩
              rcases List.mem_cons.mp hq with hq | hq
              · subst hq
                simp [pumpStops, hz] at hs
              · exact hrest.2.mpr ⟨q, hq, hs⟩

/-- C4 witness: the theorem applied to a two-read history that relays one
chunk and then reaches end-of-data. -/
theorem c4_witness :
    (∀ p ∈ [(ReadRes.ok [1, 2], false), (ReadRes.ok [], false)],
      readLen p ≤ BUFFER_SIZE) ∧
    ((∀ c ∈ (pump [(ReadRes.ok [1, 2], false), (ReadRes.ok [], false)]).1,
        c ≠ [] ∧ c.length ≤ BUFFER_SIZE) ∧
      ((pump [(ReadRes.ok [1, 2], false), (ReadRes.ok [], false)]).2 ≠
          PumpExit.pending ↔
        ∃ p ∈ [(ReadRes.ok [1, 2], false), (ReadRes.ok [], false)],
          pumpStops p = true)) :=
  ⟨by decide, c4_pump_chunks_and_exit
    [(ReadRes.ok [1, 2], false), (ReadRes.ok [], false)] (by decide)⟩

/-- Appending a trace free of failed transport writes in front of a trace
satisfying the no-poll-after-write-failure property preserves it. -/
theorem noTryRecvAfterWsFail_append (a b : List Ev)
    (ha : a.all (fun e => !e.isWsWriteFail) = true)
    (hb : noTryRecvAfterWsFail b = true) :
    noTryRecvAfterWsFail (a ++ b) = true := by
  induction a with
  | nil => simpa using hb
  | cons e a ih =>
    simp only [List.all_cons, Bool.and_eq_true] at ha
    have he : e.isWsWriteFail = false := by
      simpa using ha.1
    simp only [List.cons_append, noTryRecvAfterWsFail, he, if_false,
      Bool.and_eq_true]
    exact ⟨rfl, ih ha.2⟩

/-- Every iteration trace satisfies the no-poll-after-write-failure
property, and an iteration that continues the loop contains no failed
transport write at all. -/
theorem step_wsfail_last (echo : Bool) (st : BState) (inp : IterIn) :
    noTryRecvAfterWsFail (step echo st inp).2.2 = true ∧
    ((step echo st inp).1 = .cont →
      (step echo st inp).2.2.all (fun e => !e.isWsWriteFail) = true) := by
  obtain ⟨chan, sd, sink⟩ := st
  obtain ⟨arr, dn, outcome, el, pw, ww⟩ := inp
  cases outcome with
  | msg m =>
    cases m <;> cases echo <;>
      simp [step, write_all_succeeds, noTryRecvAfterWsFail, Ev.isWsWriteFail,
        Ev.isTryRecv]
  | otherErr => simp [step, noTryRecvAfterWsFail]
  | timedOut =>
    by_cases hel : TIMEOUT_MS ≤ el
    · simp [step, hel, noTryRecvAfterWsFail]
    · cases chan with
      | nil =>
        cases sd <;>
          simp [step, hel, try_recv, noTryRecvAfterWsFail, Ev.isWsWriteFail]
      | cons x c =>
        cases ww <;> cases echo <;>
          simp [step, hel, try_recv, noTryRecvAfterWsFail, Ev.isWsWriteFail,
            Ev.isTryRecv]

/-- C5: over any bridge-loop run, once a transport write of an outbound
chunk fails no later try_recv poll of the channel occurs: the loop exits
immediately. -/
theorem c5_send_failure_exits_immediately (echo : Bool) (st : BState)
    (inputs : List IterIn) :
    noTryRecvAfterWsFail (run echo st inputs).2.1 = true := by
  induction inputs generalizing st with
  | nil => simp [run, noTryRecvAfterWsFail]
  | cons inp rest ih =>
    have hs := step_wsfail_last echo (deliver st inp) inp
    rcases hstep : step echo (deliver st inp) inp with ⟨ctl, st1, evs⟩
    rw [hstep] at hs
    cases ctl with
    | brk =>
      simpa [run, hstep] using hs.1
    | cont =>
      have hrest := ih st1
      rcases hrun : run echo st1 rest with ⟨st2, evs2, broke⟩
      rw [hrun] at hrest
      simp only [run, hstep, hrun]
      exact noTryRecvAfterWsFail_append evs evs2 (hs.2 rfl) hrest

/-- C5 witness: the theorem applied to a concrete run in which a queued
chunk is polled and its transport write fails. -/
theorem c5_witness :
    noTryRecvAfterWsFail
      (run false st1
        [{ arrivals := [], dropNow := false, outcome := .timedOut,
           elapsed := 0, pinWriteOk := true, wsWriteOk := false }]).2.1 = true :=
  c5_send_failure_exits_immediately false st1
    [{ arrivals := [], dropNow := false, outcome := .timedOut,
       elapsed := 0, pinWriteOk := true, wsWriteOk := false }]

/-- The loop body never emits a socket-configuration or logging event. -/
theorem step_no_config (echo : Bool) (st : BState) (inp : IterIn) :
    (step echo st inp).2.2.all (fun e => !e.isConfig) = true := by
  obtain ⟨chan, sd, sink⟩ := st
  obtain ⟨arr, dn, outcome, el, pw, ww⟩ := inp
  cases outcome with
  | msg m => cases m <;> cases echo <;> simp [step, Ev.isConfig]
  | otherErr => simp [step]
  | timedOut =>
    by_cases hel : TIMEOUT_MS ≤ el
    · simp [step, hel]
    · cases chan with
      | nil => cases sd <;> simp [step, hel, try_recv, Ev.isConfig]
      | cons x c => cases echo <;> simp [step, hel, try_recv, Ev.isConfig]

/-- A whole bridge-loop run never emits a socket-configuration event. -/
theorem run_no_config (echo : Bool) (st : BState) (inputs : List IterIn) :
    (run echo st inputs).2.1.all (fun e => !e.isConfig) = true := by
  induction inputs generalizing st with
  | nil => simp [run]
  | cons inp rest ih =>
    have hs := step_no_config echo (deliver st inp) inp
    rcases hstep : step echo (deliver st inp) inp with ⟨ctl, st1, evs⟩
    rw [hstep] at hs
    cases ctl with
    | brk => simpa [run, hstep] using hs
    | cont =>
      have hrest := ih st1
      rcases hrun : run echo st1 rest with ⟨st2, evs2, broke⟩
      rw [hrun] at hrest
      simp only [run, hstep, hrun, List.all_append, Bool.and_eq_true]
      exact ⟨hs, hrest⟩

/-- No event of a bridge-loop run satisfies a predicate that only
configuration events can satisfy. -/
theorem run_countP_config_zero (p : Ev → Bool)
    (hp : ∀ e, p e = true → e.isConfig = true) (echo : Bool) (st : BState)
    (inputs : List IterIn) :
    (run echo st inputs).2.1.countP p = 0 := by
  rw [List.countP_eq_zero]
  intro e he hpe
  have h := run_no_config echo st inputs
  rw [List.all_eq_true] at h
  have h2 := h e he
  rw [hp e hpe] at h2
  simp at h2

/-- Clearing the read deadline is a configuration event. -/
theorem isClearReadTimeout_config (e : Ev) :
    e.isClearReadTimeout = true → e.isConfig = true := by
  cases e <;> simp [Ev.isClearReadTimeout, Ev.isConfig]

/-- Disabling nodelay is a configuration event. -/
theorem isSetNodelayFalse_config (e : Ev) :
    e.isSetNodelayFalse = true → e.isConfig = true := by
  cases e <;> simp [Ev.isSetNodelayFalse, Ev.isConfig]

/-- C2 counterexample: in the concrete session that ends by a remote read
error and whose read-deadline clear fails, set_nodelay(false) is never
attempted, so the two teardown operations do not both happen exactly once. -/
theorem c2_counterexample :
    ¬ ((connect_streams false true true st0 [errIn] false true).countP
          Ev.isClearReadTimeout = 1 ∧
       (connect_streams false true true st0 [errIn] false true).countP
          Ev.isSetNodelayFalse = 1) := by
  decide

/-- C2 (amended): on every exit of the bridge loop the read-deadline clear
is attempted exactly once; disabling nodelay is attempted exactly once if
the clear succeeded and not at all if it failed, because the fail macro
logs the error and returns early; the caller connect_process still kills
and reaps the child afterwards in every case. -/
theorem c2_teardown_once (echo : Bool) (st : BState) (inputs : List IterIn)
    (clearOk nodelayOffOk killOk waitOk : Bool)
    (hbroke : (run echo st inputs).2.2 = true) :
    (connect_streams echo true true st inputs clearOk nodelayOffOk).countP
        Ev.isClearReadTimeout = 1 ∧
    (connect_streams echo true true st inputs clearOk nodelayOffOk).countP
        Ev.isSetNodelayFalse = (if clearOk then 1 else 0) ∧
    ((clearOk = false ∨ nodelayOffOk = false) →
      Ev.logErrorEv ∈ teardownEvs clearOk nodelayOffOk) ∧
    PEv.killE killOk ∈ connect_process true true echo true true st inputs
      clearOk nodelayOffOk killOk waitOk ∧
    PEv.waitE waitOk ∈ connect_process true true echo true true st inputs
      clearOk nodelayOffOk killOk waitOk := by
  rcases hrun : run echo st inputs with ⟨st2, evs, broke⟩
  rw [hrun] at hbroke
  have hb : broke = true := hbroke
  subst hb
  have hclear0 : evs.countP Ev.isClearReadTimeout = 0 := by
    have h := run_countP_config_zero Ev.isClearReadTimeout
      isClearReadTimeout_config echo st inputs
    rw [hrun] at h
    exact h
  have hnd0 : evs.countP Ev.isSetNodelayFalse = 0 := by
    have h := run_countP_config_zero Ev.isSetNodelayFalse
      isSetNodelayFalse_config echo st inputs
    rw [hrun] at h
    exact h
  have hcs : connect_streams echo true true st inputs clearOk nodelayOffOk =
      [Ev.setReadTimeoutEv (some TICK_DURATION_MS) true,
        Ev.setNodelayEv true true] ++
        (evs ++ teardownEvs clearOk nodelayOffOk) := by
    simp [connect_streams, hrun]
  refine ⟨?_, ?_, ?_, ?_, ?_⟩
  · rw [hcs, List.countP_append, List.countP_append, hclear0]
    cases clearOk <;> cases nodelayOffOk <;> decide
  · rw [hcs, List.countP_append, List.countP_append, hnd0]
    cases clearOk <;> cases nodelayOffOk <;> decide
  · intro h
    rcases h with h | h
    · subst h
      cases nodelayOffOk <;> simp [teardownEvs]
    · subst h
      cases clearOk <;> simp [teardownEvs]
  · simp [connect_process]
  · simp [connect_process]

/-- C2 witness: the amended theorem applied to a session ending by a
remote error whose read-deadline clear fails. -/
theorem c2_witness :
    (run false st0 [errIn]).2.2 = true ∧
    ((connect_streams false true true st0 [errIn] false true).countP
        Ev.isClearReadTimeout = 1 ∧
      (connect_streams false true true st0 [errIn] false true).countP
        Ev.isSetNodelayFalse = (if (false : Bool) then 1 else 0) ∧
      (((false : Bool) = false ∨ (true : Bool) = false) →
        Ev.logErrorEv ∈ teardownEvs false true) ∧
      PEv.killE true ∈ connect_process true true false true true st0 [errIn]
        false true true true ∧
      PEv.waitE true ∈ connect_process true true false true true st0 [errIn]
        false true true true) :=
  ⟨by decide, c2_teardown_once false st0 [errIn] false true true true (by decide)⟩

/-- C8: whenever both handles are available, the trace of connect_process
ends with the kill of the child immediately followed by the wait, for any
outcome of either; neither occurs earlier, and every event of the bridged
connect_streams session precedes them. -/
theorem c8_kill_then_wait (echo suT suN clearOk ndOk killOk waitOk : Bool)
    (st : BState) (inputs : List IterIn) :
    ∃ pre,
      connect_process true true echo suT suN st inputs clearOk ndOk killOk
          waitOk = pre ++ [PEv.killE killOk, PEv.waitE waitOk] ∧
      (∀ e ∈ pre, e.isKillE = false ∧ e.isWaitE = false) ∧
      (∀ ev ∈ connect_streams echo suT suN st inputs clearOk ndOk,
        PEv.bridgeE ev ∈ pre) := by
  refine ⟨[PEv.takeStdinE true, PEv.takeStdoutE true] ++
    (connect_streams echo suT suN st inputs clearOk ndOk).map PEv.bridgeE,
    by simp [connect_process], ?_, ?_⟩
  · intro e he
    rcases List.mem_append.mp he with he | he
    · rcases List.mem_cons.mp he with rfl | he
      · exact ⟨rfl, rfl⟩
      · rcases List.mem_cons.mp he with rfl | he
        · exact ⟨rfl, rfl⟩
        · simp at he
    · rcases List.mem_map.mp he with ⟨ev, _, rfl⟩
      exact ⟨rfl, rfl⟩
  · intro ev hev
    exact List.mem_append_right _ (List.mem_map_of_mem _ hev)

/-- C8 witness: the theorem applied to a concrete one-iteration session. -/
theorem c8_witness :
    ∃ pre,
      connect_process true true false true true st0 [errIn] true true true
          true = pre ++ [PEv.killE true, PEv.waitE true] ∧
      (∀ e ∈ pre, e.isKillE = false ∧ e.isWaitE = false) ∧
      (∀ ev ∈ connect_streams false true true st0 [errIn] true true,
        PEv.bridgeE ev ∈ pre) :=
  c8_kill_then_wait false true true true true true true st0 [errIn]

/-- C9: when taking stdin fails, connect_process stops at once with only
the failed take and the log; when taking stdout fails, stdin has already
been taken and only the log follows; on neither path is the bridge run,
the child killed, or the child waited on. -/
theorem c9_missing_handle_skips_cleanup
    (b echo suT suN clearOk ndOk killOk waitOk : Bool) (st : BState)
    (inputs : List IterIn) :
    connect_process false b echo suT suN st inputs clearOk ndOk killOk
        waitOk = [PEv.takeStdinE false, PEv.logErrorP] ∧
    connect_process true false echo suT suN st inputs clearOk ndOk killOk
        waitOk = [PEv.takeStdinE true, PEv.takeStdoutE false, PEv.logErrorP] ∧
    (∀ e ∈ connect_process false b echo suT suN st inputs clearOk ndOk
        killOk waitOk,
      e.isKillE = false ∧ e.isWaitE = false ∧ e.isBridgeE = false) ∧
    (∀ e ∈ connect_process true false echo suT suN st inputs clearOk ndOk
        killOk waitOk,
      e.isKillE = false ∧ e.isWaitE = false ∧ e.isBridgeE = false) := by
  refine ⟨by simp [connect_process], by simp [connect_process], ?_, ?_⟩
  · intro e he
    simp only [connect_process, Bool.false_eq_true, if_false] at he
    rcases List.mem_cons.mp he with rfl | he
    · exact ⟨rfl, rfl, rfl⟩
    · rcases List.mem_cons.mp he with rfl | he
      · exact ⟨rfl, rfl, rfl⟩
      · simp at he
  · intro e he
    simp only [connect_process, Bool.false_eq_true, if_false, if_true] at he
    rcases List.mem_cons.mp he with rfl | he
    · exact ⟨rfl, rfl, rfl⟩
    · rcases List.mem_cons.mp he with rfl | he
      · exact ⟨rfl, rfl, rfl⟩
      · rcases List.mem_cons.mp he with rfl | he
        · exact ⟨rfl, rfl, rfl⟩
        · simp at he

/-- C9 witness: the theorem applied at concrete arguments. -/
theorem c9_witness :
    connect_process false true false true true st0 [] true true true true =
      [PEv.takeStdinE false, PEv.logErrorP] ∧
    connect_process true false false true true st0 [] true true true true =
      [PEv.takeStdinE true, PEv.takeStdoutE false, PEv.logErrorP] ∧
    (∀ e ∈ connect_process false true false true true st0 [] true true true
        true,
      e.isKillE = false ∧ e.isWaitE = false ∧ e.isBridgeE = false) ∧
    (∀ e ∈ connect_process true false false true true st0 [] true true true
        true,
      e.isKillE = false ∧ e.isWaitE = false ∧ e.isBridgeE = false) :=
  c9_missing_handle_skips_cleanup true false true true true true true true
    st0 []

end Rtal
